import Mathlib

/-!
Shallow embedding of the runsd reverse proxy (proxy.go, authorization.go).

Modelling conventions:
* Go strings here are ASCII hostnames, region identifiers and diagnostic
  text, so Go byte indices and Lean character indices coincide; Go string
  values are modelled as Lean `String` and list-level work happens on
  `String.data`.
* The package-level map `cloudRunRegionCodes` is declared in a source file
  that is not part of the two provided ones; every claim quantifies over
  registered/unregistered regions, so the table is passed as an explicit
  lookup parameter `codes : String → Option String`, the Go map access
  `cloudRunRegionCodes[k]` with its `ok` flag becoming `codes k`.
* Ambient effects of `resolveCloudRunHost` become explicit parameters:
  `kService` is the value of `os.Getenv "K_SERVICE"`, and `metadataResp`
  is the outcome of the metadata HTTP call (`none` when `client.Do`
  returns an error, `some body` for the bytes read from the response
  body; the Go code ignores the `ReadAll` error and the HTTP status, so
  the body string is the only datum).
* `identityToken` (metadata token issuance) lives outside the provided
  files and is passed to `tokenFromHost` as a function parameter.
* klog logging calls have no semantic effect and are dropped.
-/

/-- Go `strings.ToLower` restricted to ASCII input: each character is
lower-cased independently (`Char.toLower` maps A-Z to a-z and fixes
everything else, exactly Go's ASCII case folding). -/
def goToLower (s : String) : String :=
  String.mk (s.data.map Char.toLower)

/-- Go `strings.Contains s (singleton c)`: a one-character needle is
present exactly when the character occurs in the string. -/
def goContains (s : String) (c : Char) : Bool :=
  s.data.contains c

/-- Go `strings.Trim s cutset` for a one-character cutset: removes all
leading and trailing copies of that character. -/
def goTrim (s : String) (c : Char) : String :=
  String.mk (((s.data.dropWhile (· == c)).reverse.dropWhile (· == c)).reverse)

/-- Go `strings.TrimSuffix`: removes one trailing copy of the suffix when
present, otherwise returns the string unchanged. -/
def goTrimSuffix (s suf : String) : String :=
  if suf.data.isSuffixOf s.data then
    String.mk (s.data.take (s.data.length - suf.data.length))
  else s

/-- Go `fmt` `%q` applied to a string that needs no escapes (the region
identifiers and hostnames this program formats): wraps it in double
quotes. -/
def goQuote (s : String) : String :=
  "\"" ++ s ++ "\""

/-- The apostrophe character, used to spell the Director's diagnostic
format text without a bare quote character in this file. -/
def apos : String :=
  String.mk [Char.ofNat 39]

/-- The two `fmt.Errorf` sites of `resolveCloudRunHost`:
`unknownRegion r` is `fmt.Errorf("region %q is not handled", r)` and
`metadataUnavailable` is the fixed message built when the metadata
request itself fails. -/
inductive ResolveErr where
  | unknownRegion (region : String)
  | metadataUnavailable
  deriving DecidableEq

/-- The Go error text rendered by `%v` for each `fmt.Errorf` site of
`resolveCloudRunHost`. -/
def ResolveErr.message : ResolveErr → String
  | .unknownRegion r => "region " ++ goQuote r ++ " is not handled"
  | .metadataUnavailable => "Can`t retrieve region for current execution"

/-- proxy.go `mkCloudRunHost`:
`fmt.Sprintf("%s-%s-%s.a.run.app", svc, projectHash, regionCode)`. -/
def mkCloudRunHost (svc regionCode projectHash : String) : String :=
  svc ++ "-" ++ projectHash ++ "-" ++ regionCode ++ ".a.run.app"

/-- Go `strings.Split s (singleton c)` on characters: splits around every
occurrence of the one-character separator; never returns an empty list. -/
def splitOnChar (c : Char) : List Char → List (List Char)
  | [] => [[]]
  | a :: as =>
    let r := splitOnChar c as
    if a == c then [] :: r
    else
      match r with
      | [] => [[a]]
      | g :: gs => (a :: g) :: gs

/-- The region denoted by a metadata response body: the Go code splits the
body on "/" and indexes the last element (`strings.Split` never returns an
empty list, so the index `len-1` is the last element). -/
def metadataRegion (body : String) : String :=
  String.mk ((splitOnChar '/' body.data).getLastD [])

/-- proxy.go `resolveCloudRunHost`. The hostname is lower-cased; an
undotted hostname is resolved in `curRegion`; a dotted hostname computes
the (unused) `_trimmed` remainder, reads the service identity from the
environment, asks the metadata endpoint for the current region and
resolves with that region's code. Returns the Go pair (authority, error),
the error rendered by `ResolveErr.message`. -/
def resolveCloudRunHost (codes : String → Option String) (kService : String)
    (metadataResp : Option String)
    (internalDomain hostname curRegion projectHash : String) :
    String × Option ResolveErr :=
  let hostname := goToLower hostname
  if !(goContains hostname '.') then
    match codes curRegion with
    | none => ("", some (.unknownRegion curRegion))
    | some rc => (mkCloudRunHost hostname rc projectHash, none)
  else
    let _trimmed := goTrimSuffix hostname ("." ++ goTrim internalDomain '.')
    let svc := kService
    match metadataResp with
    | none => ("", some .metadataUnavailable)
    | some body =>
      let region := metadataRegion body
      match codes region with
      | none => ("", some (.unknownRegion curRegion))
      | some rc => (mkCloudRunHost svc rc projectHash, none)

/-- Index of the last occurrence of a character in a list (Go `net`'s
internal backwards scan for the last colon). -/
def lastIdxOf (c : Char) : List Char → Option Nat
  | [] => none
  | a :: as =>
    match lastIdxOf c as with
    | some i => some (i + 1)
    | none => if a == c then some 0 else none

/-- Go `net.SplitHostPort`, on characters (ASCII input). `none` models a
non-nil Go error (missing port, too many colons, bracket errors); `some
(host, port)` the successful split at the last colon. -/
def splitHostPort (hostPort : String) : Option (String × String) :=
  let cs := hostPort.data
  match lastIdxOf ':' cs with
  | none => none
  | some i =>
    if cs.head? = some '[' then
      match List.findIdx? (· == ']') cs with
      | none => none
      | some e =>
        if e + 1 = cs.length then none
        else if e + 1 = i then
          if (cs.drop 1).contains '[' then none
          else if (cs.drop (e + 1)).contains ']' then none
          else some (String.mk ((cs.take e).drop 1), String.mk (cs.drop (i + 1)))
        else none
    else
      let host := cs.take i
      if host.contains ':' then none
      else if cs.contains '[' then none
      else if cs.contains ']' then none
      else some (String.mk host, String.mk (cs.drop (i + 1)))

/-- The synthetic early response the Director stashes: only its status
code and body are observable in the claims (the Go `http.Response` also
back-references the request). -/
structure SyntheticResponse where
  statusCode : Nat
  body : String
  deriving DecidableEq

/-- The observable state of an `http.Request` touched by the Director:
URL scheme, URL host, the `Host` field, the header map (as an association
list keyed by canonical MIME keys), and the context slot keyed by
`ctxKeyEarlyResponse` (modelled as an optional field, since that is the
only context key this program uses). -/
structure Request where
  urlScheme : String
  urlHost : String
  host : String
  headers : List (String × String)
  ctxEarlyResponse : Option SyntheticResponse
  deriving DecidableEq

/-- proxy.go `reverseProxy` configuration struct. -/
structure reverseProxy where
  projectHash : String
  currentRegion : String
  internalDomain : String

/-- proxy.go `ctxKeyEarlyResponse`. -/
def ctxKeyEarlyResponse : String :=
  "early-response"

/-- Helper for `canonicalMIMEHeaderKey`: upper-case a letter at the start
and after each hyphen, lower-case the other letters. -/
def canonChars : Bool → List Char → List Char
  | _, [] => []
  | up, c :: cs => (if up then c.toUpper else c.toLower) :: canonChars (c == '-') cs

/-- `textproto.CanonicalMIMEHeaderKey` for valid ASCII tokens such as
"host". -/
def canonicalMIMEHeaderKey (s : String) : String :=
  String.mk (canonChars true s.data)

/-- `http.Header.Set`: stores the single value under the canonicalized
key, replacing any previous values for that key. -/
def headerSet (hs : List (String × String)) (key value : String) :
    List (String × String) :=
  let k := canonicalMIMEHeaderKey key
  (k, value) :: hs.filter (fun p => p.1 != k)

/-- The host the Director resolves: `req.Host`, with the port stripped
when `net.SplitHostPort` succeeds (otherwise the value is kept whole). -/
def directorOrigHost (host : String) : String :=
  match splitHostPort host with
  | some hp => hp.1
  | none => host

/-- The Director hook of `newReverseProxyHandler`. On resolution success
it rewrites scheme, URL host, `Host` and the "host" header to the
resolved authority; on failure it stashes a 500 response carrying the
original `req.Host` and the error text in the context slot, leaving
everything else unchanged (`req.WithContext` copies the request and only
swaps the context). -/
def director (codes : String → Option String) (kService : String)
    (metadataResp : Option String) (rp : reverseProxy) (req : Request) :
    Request :=
  let origHost := directorOrigHost req.host
  match resolveCloudRunHost codes kService metadataResp rp.internalDomain
      origHost rp.currentRegion rp.projectHash with
  | (runHost, none) =>
    { req with
        urlScheme := "https"
        urlHost := runHost
        host := runHost
        headers := headerSet req.headers "host" runHost }
  | (_, some err) =>
    { req with
        ctxEarlyResponse := some
          { statusCode := 500
            body := "runsd doesn" ++ apos ++ "t know how to handle host=" ++
              goQuote req.host ++ ": " ++ err.message } }

/-- Modelled from the spec: the proxy-engine checkpoint that honours the
early-response marker. The code implementing it is not among the provided
source files (only `ctxKeyEarlyResponse` and the Director's stash are);
per the spec, the checkpoint recognizes the key and, when the marker is
present, sends the synthetic response directly instead of forwarding
upstream. -/
def engineCheckpoint (forward : Request → SyntheticResponse) (req : Request) :
    SyntheticResponse :=
  match req.ctxEarlyResponse with
  | some resp => resp
  | none => forward req

/-- authorization.go `tokenFromHost`: derives the audience
`"https://" + host`, calls `identityToken` (declared outside the provided
files, passed as a parameter) and wraps its failure. -/
def tokenFromHost (identityToken : String → String × Option String)
    (host : String) : String × Option String :=
  match identityToken ("https://" ++ host) with
  | (idToken, none) => (idToken, none)
  | (_, some e) =>
    ("", some ("failed to fetch metadata token from host " ++ host ++ ": " ++ e))

/-- A one-entry region code table used to instantiate the theorems at
concrete inputs: it registers "us-central1" with code "uc1" and nothing
else (the shape of the real `cloudRunRegionCodes` entries). -/
def sampleRegionCodes : String → Option String :=
  fun r => if r = "us-central1" then some "uc1" else none

/-- `Char.ofNat` evaluates to the given code point when it is a valid
scalar value. -/
theorem char_toNat_ofNat {n : Nat} (h : n.isValidChar) :
    (Char.ofNat n).toNat = n := by
  unfold Char.ofNat
  rw [dif_pos h]
  unfold Char.ofNatAux Char.toNat
  simp [UInt32.toNat]

/-- ASCII lower-casing neither creates nor destroys a dot. -/
theorem char_toLower_eq_dot (c : Char) : c.toLower = '.' ↔ c = '.' := by
  unfold Char.toLower
  simp only []
  split
  · rename_i h
    constructor
    · intro hc
      have h2 : (Char.ofNat (c.toNat + 32)).toNat = ('.' : Char).toNat := by
        rw [hc]
      have hv : (c.toNat + 32).isValidChar := by
        constructor
        omega
      rw [char_toNat_ofNat hv] at h2
      have hd : ('.' : Char).toNat = 46 := by decide
      omega
    · intro hc
      subst hc
      simp at h
  · simp

/-- Lower-casing a string preserves whether it contains a dot. -/
theorem goContains_goToLower_dot (s : String) :
    goContains (goToLower s) '.' = goContains s '.' := by
  unfold goContains goToLower
  simp only [List.contains, List.elem_eq_mem, decide_eq_decide]
  constructor
  · intro hm
    rcases List.mem_map.mp hm with ⟨c, hc, he⟩
    rwa [(char_toLower_eq_dot c).mp he] at hc
  · intro hm
    exact List.mem_map.mpr ⟨'.', hm, by decide⟩

/-- Branch characterization: on an undotted hostname,
`resolveCloudRunHost` only looks up `curRegion`. -/
theorem resolveCloudRunHost_bare (codes : String → Option String)
    (ksvc : String) (meta : Option String) (d h r p : String)
    (hdot : goContains h '.' = false) :
    resolveCloudRunHost codes ksvc meta d h r p =
      match codes r with
      | none => ("", some (.unknownRegion r))
      | some rc => (mkCloudRunHost (goToLower h) rc p, none) := by
  unfold resolveCloudRunHost
  simp [goContains_goToLower_dot, hdot]

/-- Branch characterization: on a dotted hostname, `resolveCloudRunHost`
asks the metadata endpoint, looks up the region the body denotes, and
builds the authority from the K_SERVICE identity. -/
theorem resolveCloudRunHost_dotted (codes : String → Option String)
    (ksvc : String) (meta : Option String) (d h r p : String)
    (hdot : goContains h '.' = true) :
    resolveCloudRunHost codes ksvc meta d h r p =
      match meta with
      | none => ("", some .metadataUnavailable)
      | some body =>
        match codes (metadataRegion body) with
        | none => ("", some (.unknownRegion r))
        | some rc => (mkCloudRunHost ksvc rc p, none) := by
  unfold resolveCloudRunHost
  simp [goContains_goToLower_dot, hdot]

/-- C1: for every undotted hostname h whose current region r is registered
with code c, `resolveCloudRunHost` succeeds and returns exactly
`lower(h) ++ "-" ++ projectHash ++ "-" ++ c ++ ".a.run.app"`. -/
theorem c1_bare_resolution (codes : String → Option String) (ksvc : String)
    (meta : Option String) (d h r p c : String)
    (hdot : goContains h '.' = false) (hreg : codes r = some c) :
    resolveCloudRunHost codes ksvc meta d h r p =
      (goToLower h ++ "-" ++ p ++ "-" ++ c ++ ".a.run.app", none) := by
  rw [resolveCloudRunHost_bare codes ksvc meta d h r p hdot, hreg]
  rfl

/-- Witness for C1 at a concrete undotted hostname and registered
region. -/
theorem c1_bare_resolution_witness :
    resolveCloudRunHost sampleRegionCodes "" none "internal" "MySvc"
      "us-central1" "abcd1234" =
      (goToLower "MySvc" ++ "-" ++ "abcd1234" ++ "-" ++ "uc1" ++ ".a.run.app",
        none) :=
  c1_bare_resolution sampleRegionCodes "" none "internal" "MySvc"
    "us-central1" "abcd1234" "uc1" (by decide) (by decide)

/-- C7: resolution is case-insensitive in the hostname: "Foo" and "foo"
resolve identically, and in general any two hostnames with the same
lower-casing resolve identically. -/
theorem c7_case_insensitive (codes : String → Option String) (ksvc : String)
    (meta : Option String) (d r p : String) :
    resolveCloudRunHost codes ksvc meta d "Foo" r p =
      resolveCloudRunHost codes ksvc meta d "foo" r p ∧
    ∀ h₁ h₂ : String, goToLower h₁ = goToLower h₂ →
      resolveCloudRunHost codes ksvc meta d h₁ r p =
        resolveCloudRunHost codes ksvc meta d h₂ r p := by
  have key : ∀ h₁ h₂ : String, goToLower h₁ = goToLower h₂ →
      resolveCloudRunHost codes ksvc meta d h₁ r p =
        resolveCloudRunHost codes ksvc meta d h₂ r p := by
    intro h₁ h₂ hl
    unfold resolveCloudRunHost
    rw [hl]
  exact ⟨key "Foo" "foo" (by decide), key⟩

/-- Witness for C7: two concrete hostnames differing only in case
resolve to the same outcome. -/
theorem c7_case_insensitive_witness :
    resolveCloudRunHost sampleRegionCodes "" none "internal" "BaR"
      "us-central1" "ph" =
      resolveCloudRunHost sampleRegionCodes "" none "internal" "bar"
        "us-central1" "ph" :=
  (c7_case_insensitive sampleRegionCodes "" none "internal" "us-central1"
    "ph").2 "BaR" "bar" (by decide)

/-- C3: on a domain-qualified (dotted) hostname the resolver composes the
authority from the K_SERVICE identity and the code of the
metadata-reported region; the trimmed hostname remainder is never used to
select the target service (any two dotted hostnames resolve
identically). -/
theorem c3_dotted_uses_kservice (codes : String → Option String)
    (ksvc body d h₁ h₂ r p : String)
    (hd1 : goContains h₁ '.' = true) (hd2 : goContains h₂ '.' = true) :
    resolveCloudRunHost codes ksvc (some body) d h₁ r p =
      resolveCloudRunHost codes ksvc (some body) d h₂ r p ∧
    ∀ rc, codes (metadataRegion body) = some rc →
      resolveCloudRunHost codes ksvc (some body) d h₁ r p =
        (mkCloudRunHost ksvc rc p, none) := by
  rw [resolveCloudRunHost_dotted codes ksvc (some body) d h₁ r p hd1,
    resolveCloudRunHost_dotted codes ksvc (some body) d h₂ r p hd2]
  refine ⟨rfl, ?_⟩
  intro rc hrc
  simp [hrc]

/-- Witness for C3: two concrete dotted hostnames naming different
services resolve to the same authority, built from K_SERVICE. -/
theorem c3_dotted_uses_kservice_witness :
    resolveCloudRunHost sampleRegionCodes "envsvc" (some "projects/p/regions/us-central1")
      "internal" "alpha.internal" "r0" "ph" =
      resolveCloudRunHost sampleRegionCodes "envsvc" (some "projects/p/regions/us-central1")
        "internal" "beta.internal" "r0" "ph" :=
  (c3_dotted_uses_kservice sampleRegionCodes "envsvc" "projects/p/regions/us-central1"
    "internal" "alpha.internal" "beta.internal" "r0" "ph" (by decide) (by decide)).1

/-- C10: in the dotted path, when the metadata-reported region has no
table entry, the error is `unknownRegion` applied to the `curRegion`
argument — not to the metadata-reported region that failed the lookup —
and its rendered message therefore names `curRegion`. -/
theorem c10_error_names_curregion (codes : String → Option String)
    (ksvc body d h r p : String)
    (hdot : goContains h '.' = true)
    (hmiss : codes (metadataRegion body) = none) :
    resolveCloudRunHost codes ksvc (some body) d h r p =
      ("", some (.unknownRegion r)) ∧
    (ResolveErr.unknownRegion r).message =
      "region " ++ goQuote r ++ " is not handled" := by
  rw [resolveCloudRunHost_dotted codes ksvc (some body) d h r p hdot]
  exact ⟨by simp [hmiss], rfl⟩

/-- Witness for C10 at inputs where the metadata-reported region
("moon-base1") differs from the curRegion argument ("us-central1"): the
message names "us-central1". -/
theorem c10_error_names_curregion_witness :
    resolveCloudRunHost sampleRegionCodes "svc" (some "projects/p/regions/moon-base1")
      "internal" "x.internal" "us-central1" "ph" =
      ("", some (.unknownRegion "us-central1")) ∧
    (ResolveErr.unknownRegion "us-central1").message =
      "region " ++ goQuote "us-central1" ++ " is not handled" :=
  c10_error_names_curregion sampleRegionCodes "svc" "projects/p/regions/moon-base1"
    "internal" "x.internal" "us-central1" "ph" (by decide) (by decide)

/-- C5 counterexample: the metadata endpoint does respond, but with a
malformed body ("garbage", not a region path); the claim says this fails
with the MetadataUnavailable error, yet the code looks the body's last
"/"-segment up in the table and fails with the unknown-region error
instead (which, per C10, names the curRegion argument). -/
theorem c5_counterexample :
    resolveCloudRunHost sampleRegionCodes "svc" (some "garbage") "internal"
      "x.internal" "us-central1" "ph" =
      ("", some (.unknownRegion "us-central1")) ∧
    some (ResolveErr.unknownRegion "us-central1") ≠
      some ResolveErr.metadataUnavailable := by
  exact ⟨by decide, by decide⟩

/-- C5 as amended: in the dotted path, resolution fails with the
MetadataUnavailable error exactly when the metadata request itself fails
(`client.Do` error, modelled as `metadataResp = none`), and no authority
is returned then; when the endpoint responds — malformed or not — the
result is never the MetadataUnavailable error (a failed region lookup
surfaces as unknownRegion instead). -/
theorem c5_amended_metadata_failure (codes : String → Option String)
    (ksvc : String) (meta : Option String) (d h r p : String)
    (hdot : goContains h '.' = true) :
    (meta = none →
      resolveCloudRunHost codes ksvc meta d h r p =
        ("", some .metadataUnavailable)) ∧
    (∀ body, meta = some body →
      (resolveCloudRunHost codes ksvc meta d h r p).2 ≠
        some ResolveErr.metadataUnavailable) := by
  rw [resolveCloudRunHost_dotted codes ksvc meta d h r p hdot]
  constructor
  · intro hm
    rw [hm]
  · intro body hm
    rw [hm]
    cases hc : codes (metadataRegion body) <;> simp [hc]

/-- Witness for C5 as amended: a concrete dotted hostname with the
metadata endpoint down fails with the MetadataUnavailable error and an
empty authority. -/
theorem c5_amended_metadata_failure_witness :
    resolveCloudRunHost sampleRegionCodes "svc" none "internal"
      "x.internal" "us-central1" "ph" =
      ("", some .metadataUnavailable) :=
  (c5_amended_metadata_failure sampleRegionCodes "svc" none "internal"
    "x.internal" "us-central1" "ph" (by decide)).1 rfl

/-- C4: whenever the region used for the table lookup (curRegion on the
undotted path, the metadata-reported region on the dotted path) is
registered, resolution does not fail; whenever it is unregistered,
resolution fails with the unknownRegion error; and whenever resolution
fails for any reason the returned authority string is empty. -/
theorem c4_registered_iff_success (codes : String → Option String)
    (ksvc : String) (meta : Option String) (d h r p : String) :
    (goContains h '.' = false →
      (∀ rc, codes r = some rc →
        (resolveCloudRunHost codes ksvc meta d h r p).2 = none) ∧
      (codes r = none →
        resolveCloudRunHost codes ksvc meta d h r p =
          ("", some (.unknownRegion r)))) ∧
    (goContains h '.' = true → ∀ body, meta = some body →
      (∀ rc, codes (metadataRegion body) = some rc →
        (resolveCloudRunHost codes ksvc meta d h r p).2 = none) ∧
      (codes (metadataRegion body) = none →
        resolveCloudRunHost codes ksvc meta d h r p =
          ("", some (.unknownRegion r)))) ∧
    (∀ e, (resolveCloudRunHost codes ksvc meta d h r p).2 = some e →
      (resolveCloudRunHost codes ksvc meta d h r p).1 = "") := by
  refine ⟨?_, ?_, ?_⟩
  · intro hdot
    rw [resolveCloudRunHost_bare codes ksvc meta d h r p hdot]
    constructor
    · intro rc hrc
      simp [hrc]
    · intro hrc
      simp [hrc]
  · intro hdot body hm
    rw [resolveCloudRunHost_dotted codes ksvc meta d h r p hdot, hm]
    constructor
    · intro rc hrc
      simp [hrc]
    · intro hrc
      simp [hrc]
  · intro e
    cases hdot : goContains h '.'
    · rw [resolveCloudRunHost_bare codes ksvc meta d h r p hdot]
      cases hrc : codes r <;> simp [hrc]
    · rw [resolveCloudRunHost_dotted codes ksvc meta d h r p hdot]
      cases hm : meta with
      | none => simp
      | some body => cases hrc : codes (metadataRegion body) <;> simp [hrc]

/-- Witness for C4 at concrete inputs: a registered region succeeds and
an unregistered one fails with the unknownRegion error. -/
theorem c4_registered_iff_success_witness :
    (resolveCloudRunHost sampleRegionCodes "" none "internal" "svc"
      "us-central1" "ph").2 = none ∧
    resolveCloudRunHost sampleRegionCodes "" none "internal" "svc"
      "nowhere1" "ph" = ("", some (.unknownRegion "nowhere1")) :=
  ⟨((c4_registered_iff_success sampleRegionCodes "" none "internal" "svc"
      "us-central1" "ph").1 (by decide)).1 "uc1" (by decide),
    ((c4_registered_iff_success sampleRegionCodes "" none "internal" "svc"
      "nowhere1" "ph").1 (by decide)).2 (by decide)⟩

/-- Director characterization on resolution failure: the request is
returned with only the early-response context slot changed. -/
theorem director_eq_fail (codes : String → Option String) (ksvc : String)
    (meta : Option String) (rp : reverseProxy) (req : Request)
    (a : String) (err : ResolveErr)
    (hres : resolveCloudRunHost codes ksvc meta rp.internalDomain
        (directorOrigHost req.host) rp.currentRegion rp.projectHash =
        (a, some err)) :
    director codes ksvc meta rp req =
      { req with
          ctxEarlyResponse := some
            { statusCode := 500
              body := "runsd doesn" ++ apos ++ "t know how to handle host=" ++
                goQuote req.host ++ ": " ++ err.message } } := by
  unfold director
  simp only [hres]

/-- Director characterization on resolution success: scheme, URL host,
Host and the "host" header are rewritten to the resolved authority. -/
theorem director_eq_success (codes : String → Option String) (ksvc : String)
    (meta : Option String) (rp : reverseProxy) (req : Request)
    (runHost : String)
    (hres : resolveCloudRunHost codes ksvc meta rp.internalDomain
        (directorOrigHost req.host) rp.currentRegion rp.projectHash =
        (runHost, none)) :
    director codes ksvc meta rp req =
      { req with
          urlScheme := "https"
          urlHost := runHost
          host := runHost
          headers := headerSet req.headers "host" runHost } := by
  unfold director
  simp only [hres]

/-- C2: when the (port-stripped) host fails to resolve, the Director
stashes a synthetic status-500 response in the request context slot keyed
by `ctxKeyEarlyResponse`; its body carries the original `req.Host` (with
its port, pre-stripping) and the failure cause, and the engine checkpoint
returns that response without invoking the forwarding path, for every
possible forwarder. -/
theorem c2_failure_early_response (codes : String → Option String)
    (ksvc : String) (meta : Option String) (rp : reverseProxy)
    (req : Request) (err : ResolveErr)
    (hfail : (resolveCloudRunHost codes ksvc meta rp.internalDomain
        (directorOrigHost req.host) rp.currentRegion rp.projectHash).2 =
        some err) :
    ∃ resp : SyntheticResponse,
      (director codes ksvc meta rp req).ctxEarlyResponse = some resp ∧
      resp.statusCode = 500 ∧
      resp.body = "runsd doesn" ++ apos ++ "t know how to handle host=" ++
        goQuote req.host ++ ": " ++ err.message ∧
      ∀ forward : Request → SyntheticResponse,
        engineCheckpoint forward (director codes ksvc meta rp req) = resp := by
  have hres : resolveCloudRunHost codes ksvc meta rp.internalDomain
      (directorOrigHost req.host) rp.currentRegion rp.projectHash =
      ((resolveCloudRunHost codes ksvc meta rp.internalDomain
        (directorOrigHost req.host) rp.currentRegion rp.projectHash).1,
        some err) := by
    rw [← hfail]
  have hd := director_eq_fail codes ksvc meta rp req _ err hres
  refine ⟨{ statusCode := 500,
            body := "runsd doesn" ++ apos ++ "t know how to handle host=" ++
              goQuote req.host ++ ": " ++ err.message }, ?_, rfl, rfl, ?_⟩
  · rw [hd]
  · intro forward
    rw [hd]
    rfl

/-- Witness for C2: a concrete request whose host has an unregistered
region gets the stashed 500 response and the checkpoint short-circuits a
forwarder that would answer 200. -/
theorem c2_failure_early_response_witness :
    ∃ resp : SyntheticResponse,
      (director sampleRegionCodes "" none
        { projectHash := "ph", currentRegion := "nowhere1",
          internalDomain := "internal" }
        { urlScheme := "http", urlHost := "svc", host := "svc:8443",
          headers := [], ctxEarlyResponse := none }).ctxEarlyResponse =
        some resp ∧
      resp.statusCode = 500 ∧
      resp.body = "runsd doesn" ++ apos ++ "t know how to handle host=" ++
        goQuote "svc:8443" ++ ": " ++
        (ResolveErr.unknownRegion "nowhere1").message ∧
      ∀ forward : Request → SyntheticResponse,
        engineCheckpoint forward
          (director sampleRegionCodes "" none
            { projectHash := "ph", currentRegion := "nowhere1",
              internalDomain := "internal" }
            { urlScheme := "http", urlHost := "svc", host := "svc:8443",
              headers := [], ctxEarlyResponse := none }) = resp :=
  c2_failure_early_response sampleRegionCodes "" none
    { projectHash := "ph", currentRegion := "nowhere1",
      internalDomain := "internal" }
    { urlScheme := "http", urlHost := "svc", host := "svc:8443",
      headers := [], ctxEarlyResponse := none }
    (ResolveErr.unknownRegion "nowhere1") (by decide)

/-- C9: on resolution failure the Director leaves URL scheme, URL host,
the Host field and the headers exactly as they were; the only mutation is
the early-response context slot, which gains the synthetic response. -/
theorem c9_failure_frame (codes : String → Option String) (ksvc : String)
    (meta : Option String) (rp : reverseProxy) (req : Request)
    (err : ResolveErr)
    (hfail : (resolveCloudRunHost codes ksvc meta rp.internalDomain
        (directorOrigHost req.host) rp.currentRegion rp.projectHash).2 =
        some err) :
    (director codes ksvc meta rp req).urlScheme = req.urlScheme ∧
    (director codes ksvc meta rp req).urlHost = req.urlHost ∧
    (director codes ksvc meta rp req).host = req.host ∧
    (director codes ksvc meta rp req).headers = req.headers ∧
    (director codes ksvc meta rp req).ctxEarlyResponse = some
      { statusCode := 500
        body := "runsd doesn" ++ apos ++ "t know how to handle host=" ++
          goQuote req.host ++ ": " ++ err.message } := by
  have hres : resolveCloudRunHost codes ksvc meta rp.internalDomain
      (directorOrigHost req.host) rp.currentRegion rp.projectHash =
      ((resolveCloudRunHost codes ksvc meta rp.internalDomain
        (directorOrigHost req.host) rp.currentRegion rp.projectHash).1,
        some err) := by
    rw [← hfail]
  rw [director_eq_fail codes ksvc meta rp req _ err hres]
  exact ⟨rfl, rfl, rfl, rfl, rfl⟩

/-- Witness for C9: the concrete failing request of a request with an
unregistered region keeps scheme "http", URL host "svc", Host
"svc:8443" and its headers. -/
theorem c9_failure_frame_witness :
    (director sampleRegionCodes "" none
      { projectHash := "ph", currentRegion := "nowhere1",
        internalDomain := "internal" }
      { urlScheme := "http", urlHost := "svc", host := "svc:8443",
        headers := [("Accept", "*")], ctxEarlyResponse := none }).urlScheme =
      "http" ∧
    (director sampleRegionCodes "" none
      { projectHash := "ph", currentRegion := "nowhere1",
        internalDomain := "internal" }
      { urlScheme := "http", urlHost := "svc", host := "svc:8443",
        headers := [("Accept", "*")], ctxEarlyResponse := none }).headers =
      [("Accept", "*")] :=
  ⟨(c9_failure_frame sampleRegionCodes "" none
      { projectHash := "ph", currentRegion := "nowhere1",
        internalDomain := "internal" }
      { urlScheme := "http", urlHost := "svc", host := "svc:8443",
        headers := [("Accept", "*")], ctxEarlyResponse := none }
      (ResolveErr.unknownRegion "nowhere1") (by decide)).1,
    (c9_failure_frame sampleRegionCodes "" none
      { projectHash := "ph", currentRegion := "nowhere1",
        internalDomain := "internal" }
      { urlScheme := "http", urlHost := "svc", host := "svc:8443",
        headers := [("Accept", "*")], ctxEarlyResponse := none }
      (ResolveErr.unknownRegion "nowhere1") (by decide)).2.2.2.1⟩

/-- C8: `tokenFromHost` requests an identity token for the audience
exactly "https://" ++ host; it returns the token on success and wraps a
failure in an error naming the host and the cause. The outcome depends on
the token provider only through its value at that one audience. -/
theorem c8_token_audience (identityToken other : String → String × Option String)
    (h t : String) (e : Option String)
    (hcall : identityToken ("https://" ++ h) = (t, e)) :
    (e = none → tokenFromHost identityToken h = (t, none)) ∧
    (∀ cause, e = some cause →
      tokenFromHost identityToken h =
        ("", some ("failed to fetch metadata token from host " ++ h ++ ": " ++
          cause))) ∧
    (identityToken ("https://" ++ h) = other ("https://" ++ h) →
      tokenFromHost identityToken h = tokenFromHost other h) := by
  refine ⟨?_, ?_, ?_⟩
  · intro he
    subst he
    unfold tokenFromHost
    rw [hcall]
  · intro cause he
    subst he
    unfold tokenFromHost
    rw [hcall]
  · intro hsame
    unfold tokenFromHost
    rw [← hsame]

/-- Witness for C8: a provider that echoes the audience it was asked for
shows the requested audience is exactly "https://myservice". -/
theorem c8_token_audience_witness :
    tokenFromHost (fun aud => (aud, none)) "myservice" =
      ("https://myservice", none) :=
  (c8_token_audience (fun aud => (aud, none)) (fun aud => (aud, none))
    "myservice" "https://myservice" none rfl).1 rfl

/-- A character absent from a string makes `goContains` false. -/
theorem goContains_eq_false_iff (s : String) (c : Char) :
    goContains s c = false ↔ c ∉ s.data := by
  unfold goContains
  simp [List.contains, List.elem_eq_mem]

/-- `lastIdxOf` finds nothing when the character is absent. -/
theorem lastIdxOf_eq_none (c : Char) (l : List Char) (hm : c ∉ l) :
    lastIdxOf c l = none := by
  induction l with
  | nil => rfl
  | cons a as ih =>
    simp only [List.mem_cons, not_or] at hm
    unfold lastIdxOf
    rw [ih hm.2]
    simp only [beq_iff_eq]
    rw [if_neg (fun hh => hm.1 hh.symm)]

/-- `lastIdxOf` finds the separator when nothing to its right matches. -/
theorem lastIdxOf_append_sep (c : Char) (l₁ l₂ : List Char) (hm : c ∉ l₂) :
    lastIdxOf c (l₁ ++ c :: l₂) = some l₁.length := by
  induction l₁ with
  | nil =>
    simp [lastIdxOf, lastIdxOf_eq_none c l₂ hm]
  | cons a as ih =>
    simp [lastIdxOf, ih]

/-- Dropping past the separator of an append leaves the right part. -/
theorem drop_length_succ_append (l₁ l₂ : List Char) (a : Char) :
    (l₁ ++ a :: l₂).drop (l₁.length + 1) = l₂ := by
  induction l₁ with
  | nil => rfl
  | cons b bs ih => simp [ih]

/-- `net.SplitHostPort` splits `host:port` at the separating colon when
neither part carries a colon or a bracket. -/
theorem splitHostPort_sep (h p : String)
    (hc : ':' ∉ h.data) (hb1 : '[' ∉ h.data) (hb2 : ']' ∉ h.data)
    (pc : ':' ∉ p.data) (pb1 : '[' ∉ p.data) (pb2 : ']' ∉ p.data) :
    splitHostPort (h ++ ":" ++ p) = some (h, p) := by
  have hdata : (h ++ ":" ++ p).data = h.data ++ ':' :: p.data := by
    simp [String.data_append]
  have hlb : '[' ∉ (h.data ++ ':' :: p.data) := by
    intro hm
    rcases List.mem_append.mp hm with h1 | h2
    · exact hb1 h1
    · rcases List.mem_cons.mp h2 with h3 | h4
      · exact absurd h3 (by decide)
      · exact pb1 h4
  have hrb : ']' ∉ (h.data ++ ':' :: p.data) := by
    intro hm
    rcases List.mem_append.mp hm with h1 | h2
    · exact hb2 h1
    · rcases List.mem_cons.mp h2 with h3 | h4
      · exact absurd h3 (by decide)
      · exact pb2 h4
  have hhead : (h.data ++ ':' :: p.data).head? ≠ some '[' := by
    cases hh : h.data with
    | nil =>
      simp
    | cons a as =>
      intro hcontra
      simp only [List.cons_append, List.head?_cons, Option.some.injEq] at hcontra
      exact hb1 (by rw [hh, hcontra]; exact List.mem_cons_self '[' as)
  have hcontc : (h.data).contains ':' = false := by
    simp [List.contains, List.elem_eq_mem, hc]
  have hcontl : (h.data ++ ':' :: p.data).contains '[' = false := by
    simp [List.contains, List.elem_eq_mem, hlb]
  have hcontr : (h.data ++ ':' :: p.data).contains ']' = false := by
    simp [List.contains, List.elem_eq_mem, hrb]
  unfold splitHostPort
  simp only [hdata, lastIdxOf_append_sep ':' h.data p.data pc]
  rw [if_neg hhead]
  rw [List.take_left, drop_length_succ_append]
  simp only [hcontc, hcontl, hcontr]
  simp

/-- `net.SplitHostPort` fails on a host with no colon, leaving the
Director to use the host unchanged. -/
theorem splitHostPort_no_colon (h : String) (hc : ':' ∉ h.data) :
    splitHostPort h = none := by
  unfold splitHostPort
  simp only [lastIdxOf_eq_none ':' h.data hc]

/-- C6 counterexample: for host h = "a:b" (a host value that itself
contains a colon) and port p = "80", the request Host "a:b:80" is not
resolved using h alone — net.SplitHostPort rejects "a:b:80" (too many
colons) so the whole unstripped value is resolved — and the outcome
differs from that of a request with Host "a:b". -/
theorem c6_counterexample :
    directorOrigHost ("a:b" ++ ":" ++ "80") ≠ "a:b" ∧
    resolveCloudRunHost sampleRegionCodes "" none "internal"
      (directorOrigHost ("a:b" ++ ":" ++ "80")) "us-central1" "ph" ≠
      resolveCloudRunHost sampleRegionCodes "" none "internal"
        (directorOrigHost "a:b") "us-central1" "ph" :=
  ⟨by decide, by decide⟩

/-- C6 as amended: for every host h and port p in which neither part
contains a colon or a square bracket (in particular, every DNS hostname
and numeric port), a request with Host h ++ ":" ++ p is resolved using h
alone and yields the same resolution outcome as a request with Host h. -/
theorem c6_amended_port_invariance (codes : String → Option String)
    (ksvc : String) (meta : Option String) (d r ph h p : String)
    (hc : goContains h ':' = false) (hb1 : goContains h '[' = false)
    (hb2 : goContains h ']' = false)
    (pc : goContains p ':' = false) (pb1 : goContains p '[' = false)
    (pb2 : goContains p ']' = false) :
    directorOrigHost (h ++ ":" ++ p) = h ∧
    directorOrigHost h = h ∧
    resolveCloudRunHost codes ksvc meta d (directorOrigHost (h ++ ":" ++ p))
        r ph =
      resolveCloudRunHost codes ksvc meta d (directorOrigHost h) r ph := by
  have e1 : directorOrigHost (h ++ ":" ++ p) = h := by
    unfold directorOrigHost
    rw [splitHostPort_sep h p ((goContains_eq_false_iff h ':').mp hc)
      ((goContains_eq_false_iff h '[').mp hb1)
      ((goContains_eq_false_iff h ']').mp hb2)
      ((goContains_eq_false_iff p ':').mp pc)
      ((goContains_eq_false_iff p '[').mp pb1)
      ((goContains_eq_false_iff p ']').mp pb2)]
  have e2 : directorOrigHost h = h := by
    unfold directorOrigHost
    rw [splitHostPort_no_colon h ((goContains_eq_false_iff h ':').mp hc)]
  exact ⟨e1, e2, by rw [e1, e2]⟩

/-- Witness for C6 as amended: the spec's own example Host
"svc.internal:8443" is resolved using "svc.internal", with the same
outcome as a request with Host "svc.internal". -/
theorem c6_amended_port_invariance_witness :
    directorOrigHost ("svc.internal" ++ ":" ++ "8443") = "svc.internal" ∧
    resolveCloudRunHost sampleRegionCodes "" none "internal"
        (directorOrigHost ("svc.internal" ++ ":" ++ "8443"))
        "us-central1" "ph" =
      resolveCloudRunHost sampleRegionCodes "" none "internal"
        (directorOrigHost "svc.internal") "us-central1" "ph" := by
  have hthm := c6_amended_port_invariance sampleRegionCodes "" none
    "internal" "us-central1" "ph" "svc.internal" "8443"
    (by decide) (by decide) (by decide) (by decide) (by decide) (by decide)
  exact ⟨hthm.1, hthm.2.2⟩
